import Mathlib

/-! # kalibrate: the front end `main` of `src/kal.cc`

A shallow embedding of `main` (option loop, sanity check of frequency and
channel, device set-up, dispatch to `offset_detect` or `c0_detect`) and of
`usage`, followed by the properties of the front end.

Conventions of the embedding.

* The command line is the sequence of results that `getopt` hands to the
  `while` loop: an option letter with its `optarg`.
* `double` and `float` values are `FP`: not-a-number, the two infinities, or
  a finite value held as an exact rational.  Comparisons follow IEEE 754 (every
  comparison with a NaN is false).  The two zeros compare equal and `main`
  never looks at the sign of a zero, so both are `FP.fin 0`.
* Functions of the repository whose source is in other files (`str_to_bi`,
  `arfcn_to_freq`, `freq_to_arfcn`, the methods of `usrp_source`,
  `offset_detect`, `c0_detect`), the constant `BI_NOT_DEFINED` and the C
  library parsers `strtod`, `strtoul` are fields of `Env`.
* What `main` does to the radio is recorded as a list of events, in call
  order.  Output to stdout is not recorded; the message printed on stderr
  before `usage` is kept as the cause of the exit.
-/

namespace Kal

/-! ## Floating point values -/

/-- An IEEE 754 value: NaN, minus or plus infinity, or a finite number. -/
inductive FP where
  | nan : FP
  | ninf : FP
  | pinf : FP
  | fin (q : ℚ) : FP
  deriving DecidableEq

namespace FP

/-- The C operator `a < b` on floating values. -/
def lt : FP → FP → Bool
  | fin a, fin b => decide (a < b)
  | ninf, fin _ => true
  | ninf, pinf => true
  | fin _, pinf => true
  | _, _ => false

/-- The C operator `a <= b` on floating values. -/
def le : FP → FP → Bool
  | fin a, fin b => decide (a ≤ b)
  | ninf, fin _ => true
  | ninf, pinf => true
  | ninf, ninf => true
  | fin _, pinf => true
  | pinf, pinf => true
  | _, _ => false

/-- The C operator `a > b`. -/
def gt (a b : FP) : Bool := lt b a

/-- Is the value a NaN. -/
def isNaN : FP → Bool
  | nan => true
  | _ => false

end FP

/-- Floor of the binary logarithm of a natural number (0 for 0), by repeated
halving; `fuel` bounds the number of halvings. -/
def log2Fuel : Nat → Nat → Nat
  | 0, _ => 0
  | fuel + 1, n => if n < 2 then 0 else log2Fuel fuel (n / 2) + 1

/-- Floor of the binary logarithm of the positive fraction `n / d`
(`0 < n`, `0 < d`). -/
def floorLog2 (n d : Nat) : Int :=
  let e0 : Int := (log2Fuel n n : Int) - (log2Fuel d d : Int)
  -- 2 ^ e0 ≤ n / d, tested without fractions
  let ok : Bool :=
    if 0 ≤ e0 then decide (d * 2 ^ e0.toNat ≤ n) else decide (d ≤ n * 2 ^ (-e0).toNat)
  if ok then e0 else e0 - 1

/-- The rational `2 ^ k` for an integer exponent. -/
def pow2 (k : Int) : ℚ :=
  if 0 ≤ k then ((2 ^ k.toNat : Nat) : ℚ) else 1 / ((2 ^ (-k).toNat : Nat) : ℚ)

/-- Round the positive fraction `n / d` to `prec` significant bits, smallest
exponent `emin`, nearest value with ties to even; the result is the pair of
the integer significand and the exponent of its last bit. -/
def roundPos (prec : Nat) (emin : Int) (n d : Nat) : Nat × Int :=
  let e : Int := max (floorLog2 n d) emin
  let u : Int := e - ((prec : Int) - 1)
  -- n / d = (N / D) * 2 ^ u
  let N : Nat := if 0 ≤ u then n else n * 2 ^ (-u).toNat
  let D : Nat := if 0 ≤ u then d * 2 ^ u.toNat else d
  let k : Nat := N / D
  let r : Nat := N % D
  let k1 : Nat :=
    if 2 * r < D then k
    else if D < 2 * r then k + 1
    else if k % 2 = 0 then k else k + 1
  (k1, u)

/-- Round a rational to the binary format with `prec` significant bits and
exponent range `emin .. emax` (round to nearest, ties to even; overflow gives
an infinity). -/
def roundNE (prec : Nat) (emin emax : Int) (q : ℚ) : FP :=
  if q = 0 then FP.fin 0
  else
    let p := roundPos prec emin q.num.natAbs q.den
    let m : ℚ := (p.1 : ℚ) * pow2 p.2
    if pow2 (emax + 1) ≤ m then (if q < 0 then FP.ninf else FP.pinf)
    else FP.fin (if q < 0 then -m else m)

/-- The value of a rational as a `double` (binary64). -/
def f64 (q : ℚ) : FP := roundNE 53 (-1022) 1023 q

/-- Conversion of a `double` to `float` (binary32). -/
def toFloat : FP → FP
  | FP.fin q => roundNE 24 (-126) 127 q
  | x => x

/-- The `double` division `x / 100.0`. -/
def div100 : FP → FP
  | FP.fin q => f64 (q / 100)
  | x => x

/-- The constant `GSM_RATE = 1625000.0 / 6.0`. -/
def GSM_RATE : FP := f64 (1625000 / 6)

/-- Conversion of an `unsigned long` to `int` (32 bits, two's complement). -/
def toInt32 (n : Nat) : Int :=
  let m : Nat := n % 2 ^ 32
  if m < 2 ^ 31 then (m : Int) else (m : Int) - 2 ^ 32

/-! ## The environment of `main` -/

/-- What `strtoul(optarg, &endptr, 0)` leaves behind: the value, whether
`errno` was set, and how many characters were consumed
(`endptr == optarg` when none). -/
structure ULParse where
  value : Nat
  errno : Bool
  consumed : Nat
  deriving DecidableEq

/-- The functions and constants `main` uses and `kal.cc` does not define. -/
structure Env where
  /-- The constant `BI_NOT_DEFINED` of `arfcn_freq.h`. -/
  BI_NOT_DEFINED : Int
  /-- `str_to_bi(optarg)`. -/
  str_to_bi : String → Int
  /-- `arfcn_to_freq(chan, &bi)`: the frequency and the new value of `bi`. -/
  arfcn_to_freq : Int → Int → FP × Int
  /-- `freq_to_arfcn(freq, &bi)`: the channel and the new value of `bi`. -/
  freq_to_arfcn : FP → Int → Int × Int
  /-- `strtod(optarg, 0)` and `atof(optarg)`. -/
  strtod : String → FP
  /-- `strtoul(optarg, &endptr, 0)`. -/
  strtoul : String → ULParse
  /-- `u->open(subdev, args)`. -/
  usrp_open : Option String → Option String → Int
  /-- `u->set_gain(gain)`. -/
  set_gain : FP → Bool
  /-- `u->tune(freq)`. -/
  tune : FP → Bool
  /-- `offset_detect(u, freq)`. -/
  offset_detect : FP → Int
  /-- `c0_detect(u, bi)`. -/
  c0_detect : Int → Int

/-- One result of `getopt(argc, argv, "f:c:s:b:R:a:A:g:F:xvDh?")`: the option
letter, with `optarg` for the letters that take an argument.  `unknown` is the
`'?'` that `getopt` returns for a letter outside the list or a missing
argument. -/
inductive Opt where
  | f (optarg : String)
  | c (optarg : String)
  | s (optarg : String)
  | b (optarg : String)
  | R (optarg : String)
  | a (optarg : String)
  | A (optarg : String)
  | g (optarg : String)
  | F (optarg : String)
  | x
  | v
  | D
  | h
  | unknown
  deriving DecidableEq

/-- The local variables of `main` and the two globals it writes. -/
structure St where
  antenna : Int
  bi : Int
  chan : Int
  bts_scan : Int
  subdev : Option String
  args : Option String
  fpga_master_clock_freq : FP
  external_ref : Bool
  gain : FP
  freq : FP
  g_verbosity : Int
  g_debug : Int
  deriving DecidableEq

/-- The initial values of lines 65-66 and 99-105. -/
def St.init (env : Env) : St where
  antenna := 1
  bi := env.BI_NOT_DEFINED
  chan := -1
  bts_scan := 0
  subdev := none
  args := none
  fpga_master_clock_freq := FP.fin 52000000
  external_ref := false
  gain := toFloat (f64 (45 / 100))
  freq := FP.fin (-1)
  g_verbosity := 0
  g_debug := 0

/-- Why `usage` was called: the message printed on stderr just before, or the
place of the call when there is none. -/
inductive UsageCause where
  /-- "error: bad band indicator" (options `-s` and `-b`). -/
  | badBand (optarg : String)
  /-- "error: bad antenna". -/
  | badAntenna (optarg : String)
  /-- The gain test of option `-g`. -/
  | gainRange
  /-- Options `-h`, `-?` and the default case. -/
  | help
  /-- "error: scaning requires band". -/
  | scanNeedsBand
  /-- "error: must enter channel or frequency". -/
  | noChanOrFreq
  /-- The channel's frequency is below 869e6. -/
  | chanFreqLow
  /-- "error: bad frequency". -/
  | badFreq (freq : FP)
  deriving DecidableEq

deriving instance DecidableEq for Except

/-! ## The option loop -/

/-- The first two statements of `case 'g'`: the conversion of
`strtod(optarg, 0)` to `float`, divided by 100 when it is above 1 and at most
100. -/
def gainOfArg (env : Env) (optarg : String) : FP :=
  let gain := toFloat (env.strtod optarg)
  if FP.gt gain (FP.fin 1) && FP.le gain (FP.fin 100) then toFloat (div100 gain) else gain

/-- One iteration of the `while` loop: the `switch` on the option letter.
`Except.error` is a call of `usage`, which does not return. -/
def optStep (env : Env) (st : St) : Opt → Except UsageCause St
  | Opt.f optarg => .ok { st with freq := env.strtod optarg }
  | Opt.c optarg => .ok { st with chan := toInt32 (env.strtoul optarg).value }
  | Opt.s optarg =>
      let bi := env.str_to_bi optarg
      if bi = -1 then .error (UsageCause.badBand optarg)
      else .ok { st with bi := bi, bts_scan := 1 }
  | Opt.b optarg =>
      let bi := env.str_to_bi optarg
      if bi = -1 then .error (UsageCause.badBand optarg)
      else .ok { st with bi := bi }
  | Opt.R optarg => .ok { st with subdev := some optarg }
  | Opt.a optarg => .ok { st with args := some optarg }
  | Opt.A optarg =>
      if optarg = "RX2" then .ok { st with antenna := 1 }
      else if optarg = "TX/RX" then .ok { st with antenna := 0 }
      else
        let r := env.strtoul optarg
        if r.errno || r.consumed = 0 then .error (UsageCause.badAntenna optarg)
        else .ok { st with antenna := toInt32 r.value }
  | Opt.g optarg =>
      let gain := gainOfArg env optarg
      if FP.lt gain (FP.fin 0) || FP.lt (FP.fin 1) gain then .error UsageCause.gainRange
      else .ok { st with gain := gain }
  | Opt.F optarg => .ok { st with fpga_master_clock_freq := env.strtod optarg }
  | Opt.x => .ok { st with external_ref := true }
  | Opt.v => .ok { st with g_verbosity := st.g_verbosity + 1 }
  | Opt.D => .ok { st with g_debug := 1 }
  | Opt.h => .error UsageCause.help
  | Opt.unknown => .error UsageCause.help

/-- The `while` loop over the results of `getopt`. -/
def optLoop (env : Env) : St → List Opt → Except UsageCause St
  | st, [] => .ok st
  | st, o :: os =>
      match optStep env st o with
      | .error c => .error c
      | .ok st1 => optLoop env st1 os

/-! ## Sanity check, device set-up and dispatch -/

/-- Lines 202-210 of the sanity check: when `freq < 0.0`, the frequency comes
from the channel. -/
def sanityChan (env : Env) (st : St) : Except UsageCause St :=
  if FP.lt st.freq (FP.fin 0) then
    if st.chan < 0 then .error UsageCause.noChanOrFreq
    else
      let fb := env.arfcn_to_freq st.chan st.bi
      if FP.lt fb.1 (FP.fin 869000000) then .error UsageCause.chanFreqLow
      else .ok { st with freq := fb.1, bi := fb.2 }
  else .ok st

/-- Lines 211-215 of the sanity check: the range test of the frequency, then
the channel of the frequency. -/
def sanityRange (env : Env) (st : St) : Except UsageCause St :=
  if FP.lt st.freq (FP.fin 869000000) || FP.lt (FP.fin 2000000000) st.freq then
    .error (UsageCause.badFreq st.freq)
  else
    let cb := env.freq_to_arfcn st.freq st.bi
    .ok { st with chan := cb.1, bi := cb.2 }

/-- The sanity check of frequency and channel (lines 195-216). -/
def sanity (env : Env) (st : St) : Except UsageCause St :=
  if st.bts_scan ≠ 0 then
    if st.bi = env.BI_NOT_DEFINED then .error UsageCause.scanNeedsBand
    else .ok st
  else
    match sanityChan env st with
    | .error c => .error c
    | .ok st1 => sanityRange env st1

/-- A call on the radio made by `main`, with its arguments and its result.
`destroy` stands for `delete u` (the destructor of `usrp_source`). -/
inductive Ev where
  | construct (rate clock : FP) (external_ref : Bool)
  | usrp_open (subdev args : Option String) (r : Int)
  | set_antenna (antenna : Int)
  | set_gain (gain : FP) (r : Bool)
  | tune (freq : FP) (r : Bool)
  | offset_detect (freq : FP) (r : Int)
  | c0_detect (bi : Int) (r : Int)
  | destroy
  deriving DecidableEq

/-- How a run of `main` ends: `usage` calls `exit(-1)`; otherwise `main`
returns a value. -/
inductive Outcome where
  | usage (cause : UsageCause)
  | ret (code : Int)
  deriving DecidableEq

/-- The exit status the parent process sees: the low eight bits of the value
given to `exit` or returned by `main`. -/
def Outcome.status : Outcome → Nat
  | Outcome.usage _ => ((-1 : Int) % 256).toNat
  | Outcome.ret code => (code % 256).toNat

/-- A run of `main`: the calls made on the radio, in order, and the way the
run ends. -/
structure Run where
  trace : List Ev
  outcome : Outcome
  deriving DecidableEq

/-- Lines 230-263: construction of the source, `open`, `set_antenna`,
`set_gain`, then `tune` and `offset_detect`, or `c0_detect`.  The plain `new`
of line 231 does not return a null pointer, so the test of line 232 does not
fire. -/
def device (env : Env) (st : St) : Run :=
  let e0 := Ev.construct GSM_RATE st.fpga_master_clock_freq st.external_ref
  let ro := env.usrp_open st.subdev st.args
  let e1 := Ev.usrp_open st.subdev st.args ro
  if ro = -1 then ⟨[e0, e1], Outcome.ret (-1)⟩
  else
    let e2 := Ev.set_antenna st.antenna
    let rg := env.set_gain st.gain
    let e3 := Ev.set_gain st.gain rg
    if !rg then ⟨[e0, e1, e2, e3], Outcome.ret (-1)⟩
    else if st.bts_scan = 0 then
      let rt := env.tune st.freq
      let e4 := Ev.tune st.freq rt
      if !rt then ⟨[e0, e1, e2, e3, e4], Outcome.ret (-1)⟩
      else
        let rd := env.offset_detect st.freq
        ⟨[e0, e1, e2, e3, e4, Ev.offset_detect st.freq rd], Outcome.ret rd⟩
    else
      let rd := env.c0_detect st.bi
      ⟨[e0, e1, e2, e3, Ev.c0_detect st.bi rd], Outcome.ret rd⟩

/-- The configuration `main` has computed when it reaches line 230: the option
loop followed by the sanity check. -/
def config (env : Env) (opts : List Opt) : Except UsageCause St :=
  match optLoop env (St.init env) opts with
  | .error c => .error c
  | .ok st => sanity env st

/-- The function `main`, on the results of `getopt`. -/
def main (env : Env) (opts : List Opt) : Run :=
  match config env opts with
  | .error c => ⟨[], Outcome.usage c⟩
  | .ok st => device env st

/-! ## A concrete environment -/

/-- A table of `str_to_bi`: a distinct band indicator for each of the five band
names of the usage text, and -1 for any other string. -/
def demo_str_to_bi (s : String) : Int :=
  if s = "GSM850" then 1
  else if s = "GSM900" then 3
  else if s = "EGSM900" then 4
  else if s = "DCS1800" then 5
  else if s = "PCS1900" then 6
  else -1

/-- A table of `strtod` on the arguments used below. -/
def demo_strtod (s : String) : FP :=
  if s = "nan" then FP.nan
  else if s = "1" then FP.fin 1
  else if s = "45" then FP.fin 45
  else if s = "200" then FP.fin 200
  else if s = "945e6" then FP.fin 945000000
  else FP.fin 0

/-- A table of `strtoul` on the arguments used below. -/
def demo_strtoul (s : String) : ULParse :=
  if s = "0" then ⟨0, false, 1⟩
  else if s = "1" then ⟨1, false, 1⟩
  else if s = "50" then ⟨50, false, 2⟩
  else ⟨0, false, 0⟩

/-- An environment in which the device works: `open`, `set_gain` and `tune`
succeed, `offset_detect` returns 0 and `c0_detect` returns 0.  Channel 50 is
mapped to 945 MHz as in GSM-900; other channels are unknown. -/
def demoEnv : Env where
  BI_NOT_DEFINED := 0
  str_to_bi := demo_str_to_bi
  arfcn_to_freq := fun chan bi =>
    if chan = 50 then (FP.fin 945000000, if bi = 4 then 4 else 3) else (FP.fin (-1), 0)
  freq_to_arfcn := fun freq bi =>
    if freq = FP.fin 945000000 then (50, if bi = 4 then 4 else 3) else (-1, 0)
  strtod := demo_strtod
  strtoul := demo_strtoul
  usrp_open := fun _ _ => 0
  set_gain := fun _ => true
  tune := fun _ => true
  offset_detect := fun _ => 0
  c0_detect := fun _ => 0

/-- The environment `demoEnv` with a device that cannot be opened. -/
def envOpenFails : Env := { demoEnv with usrp_open := fun _ _ => -1 }

/-- The environment `demoEnv` with a device that refuses every gain. -/
def envGainFails : Env := { demoEnv with set_gain := fun _ => false }

/-- The environment `demoEnv` with detectors that return 7 (offset) and 9
(scan). -/
def envDetect : Env := { demoEnv with offset_detect := fun _ => 7, c0_detect := fun _ => 9 }

/-! ## Observations on a run -/

/-- Is the event a call of `offset_detect` or `c0_detect`. -/
def Ev.isDetect : Ev → Bool
  | Ev.offset_detect _ _ => true
  | Ev.c0_detect _ _ => true
  | _ => false

/-- Is the event a failed device call: `open` returning -1, `set_gain`
returning false or `tune` returning false. -/
def Ev.isHwError : Ev → Bool
  | Ev.usrp_open _ _ r => decide (r = -1)
  | Ev.set_gain _ r => !r
  | Ev.tune _ r => !r
  | _ => false

/-- Is the event a call of `open`. -/
def Ev.isOpen : Ev → Bool
  | Ev.usrp_open _ _ _ => true
  | _ => false

/-- Is the event a call of `open` that succeeded. -/
def Ev.isOpenOk : Ev → Bool
  | Ev.usrp_open _ _ r => decide (r ≠ -1)
  | _ => false

/-- Is the event a call of `tune`. -/
def Ev.isTune : Ev → Bool
  | Ev.tune _ _ => true
  | _ => false

/-- The value returned by a detector call (0 for the other events). -/
def Ev.result : Ev → Int
  | Ev.offset_detect _ r => r
  | Ev.c0_detect _ r => r
  | _ => 0

/-- The gains handed to `set_gain` during a run. -/
def gainsPassed (r : Run) : List FP :=
  r.trace.filterMap fun e => match e with
    | Ev.set_gain g _ => some g
    | _ => none

/-- The run ends in `usage`. -/
def Run.isUsage (r : Run) : Bool :=
  match r.outcome with
  | Outcome.usage _ => true
  | Outcome.ret _ => false

/-- The run ends in a hardware error: one of its device calls failed. -/
def Run.isHwError (r : Run) : Bool := r.trace.any Ev.isHwError

/-- The handle is released on the run: when the trace has a successful `open`,
it also has the destruction of the source. -/
def Run.releasesHandle (r : Run) : Prop :=
  (∃ e ∈ r.trace, e.isOpenOk = true) → Ev.destroy ∈ r.trace

/-- The configuration `kal -f 945e6` reaches with `envDetect`. -/
def stOffsetDemo : St where
  antenna := 1
  bi := 3
  chan := 50
  bts_scan := 0
  subdev := none
  args := none
  fpga_master_clock_freq := FP.fin 52000000
  external_ref := false
  gain := toFloat (f64 (45 / 100))
  freq := FP.fin 945000000
  g_verbosity := 0
  g_debug := 0

/-- The effective frequency of offset mode as the specification words it: the
last `-f` value when it is at least 0 (`freq` keeps -1 when there is no `-f`),
otherwise the frequency of the `-c` channel when the channel is at least 0,
otherwise undefined.  The state is the one the option loop has reached. -/
def effectiveFreqSpec (env : Env) (st : St) : Option FP :=
  if FP.le (FP.fin 0) st.freq then some st.freq
  else if 0 ≤ st.chan then some (env.arfcn_to_freq st.chan st.bi).1
  else none

/-- The argument of the last `-g` option of the command line, if there is
one. -/
def lastG : List Opt → Option String
  | [] => none
  | o :: os =>
      match lastG os with
      | some a => some a
      | none =>
          match o with
          | Opt.g a => some a
          | _ => none

/-- The effective frequency of a command line: `effectiveFreqSpec` on the state
the option loop reaches (undefined when the loop ends in `usage`). -/
def effectiveFreqOf (env : Env) (opts : List Opt) : Option FP :=
  match optLoop env (St.init env) opts with
  | .ok st => effectiveFreqSpec env st
  | .error _ => none

/-- The argument of the last band option (`-s` or `-b`) of the command line,
if there is one. -/
def lastBand : List Opt → Option String
  | [] => none
  | o :: os =>
      match lastBand os with
      | some a => some a
      | none =>
          match o with
          | Opt.s a => some a
          | Opt.b a => some a
          | _ => none

/-! ## Shape of the runs -/

/-- The five shapes of the trace of the device phase, with the way each
ends. -/
theorem device_shape (env : Env) (st : St) :
    let e0 := Ev.construct GSM_RATE st.fpga_master_clock_freq st.external_ref
    let e1 := Ev.usrp_open st.subdev st.args (env.usrp_open st.subdev st.args)
    let e2 := Ev.set_antenna st.antenna
    let e3 := Ev.set_gain st.gain (env.set_gain st.gain)
    let e4 := Ev.tune st.freq (env.tune st.freq)
    (env.usrp_open st.subdev st.args = -1 ∧ device env st = ⟨[e0, e1], Outcome.ret (-1)⟩) ∨
    (env.usrp_open st.subdev st.args ≠ -1 ∧ env.set_gain st.gain = false ∧
      device env st = ⟨[e0, e1, e2, e3], Outcome.ret (-1)⟩) ∨
    (env.usrp_open st.subdev st.args ≠ -1 ∧ env.set_gain st.gain = true ∧ st.bts_scan = 0 ∧
      env.tune st.freq = false ∧ device env st = ⟨[e0, e1, e2, e3, e4], Outcome.ret (-1)⟩) ∨
    (env.usrp_open st.subdev st.args ≠ -1 ∧ env.set_gain st.gain = true ∧ st.bts_scan = 0 ∧
      env.tune st.freq = true ∧
      device env st = ⟨[e0, e1, e2, e3, e4,
        Ev.offset_detect st.freq (env.offset_detect st.freq)],
        Outcome.ret (env.offset_detect st.freq)⟩) ∨
    (env.usrp_open st.subdev st.args ≠ -1 ∧ env.set_gain st.gain = true ∧ st.bts_scan ≠ 0 ∧
      device env st = ⟨[e0, e1, e2, e3, Ev.c0_detect st.bi (env.c0_detect st.bi)],
        Outcome.ret (env.c0_detect st.bi)⟩) := by
  intro e0 e1 e2 e3 e4
  unfold device
  by_cases ho : env.usrp_open st.subdev st.args = -1
  · simp [ho, e0, e1]
  · by_cases hg : env.set_gain st.gain = true
    · by_cases hs : st.bts_scan = 0
      · by_cases ht : env.tune st.freq = true
        · simp [ho, hg, hs, ht, e0, e1, e2, e3, e4]
        · simp [ho, hg, hs, ht, e0, e1, e2, e3, e4]
      · simp [ho, hg, hs, e0, e1, e2, e3]
    · simp [ho, hg, e0, e1, e2, e3]

/-- A run of `main` is either a call of `usage` with no event, or the device
phase on the configuration. -/
theorem main_cases (env : Env) (opts : List Opt) :
    (∃ c, config env opts = .error c ∧ main env opts = ⟨[], Outcome.usage c⟩) ∨
    (∃ st, config env opts = .ok st ∧ main env opts = device env st) := by
  unfold main
  cases h : config env opts with
  | error c => exact Or.inl ⟨c, rfl, rfl⟩
  | ok st => exact Or.inr ⟨st, rfl, rfl⟩

/-- The device phase never ends in `usage`. -/
theorem device_outcome_ret (env : Env) (st : St) :
    ∃ code, (device env st).outcome = Outcome.ret code := by
  rcases device_shape env st with h | h | h | h | h
  · exact ⟨_, by rw [h.2]⟩
  · exact ⟨_, by rw [h.2.2]⟩
  · exact ⟨_, by rw [h.2.2.2.2]⟩
  · exact ⟨_, by rw [h.2.2.2.2]⟩
  · exact ⟨_, by rw [h.2.2.2]⟩

/-- The device phase begins with the construction of the source. -/
theorem device_trace_ne_nil (env : Env) (st : St) : (device env st).trace ≠ [] := by
  rcases device_shape env st with h | h | h | h | h
  · rw [h.2]; simp
  · rw [h.2.2]; simp
  · rw [h.2.2.2.2]; simp
  · rw [h.2.2.2.2]; simp
  · rw [h.2.2.2]; simp

/-! ## Properties -/

/-- C3: a run of `main` that ends in a configuration error (it ends in `usage`)
or in a hardware error (`open` returned -1, `set_gain` returned false or `tune`
returned false) ends with a nonzero exit status, and in the hardware error
cases neither `offset_detect` nor `c0_detect` is called. -/
theorem C3_errors_exit_nonzero (env : Env) (opts : List Opt)
    (h : (main env opts).isUsage = true ∨ (main env opts).isHwError = true) :
    (main env opts).outcome.status ≠ 0 ∧
      ((main env opts).isHwError = true →
        ∀ e ∈ (main env opts).trace, e.isDetect = false) := by
  rcases main_cases env opts with ⟨c, _, hm⟩ | ⟨st, _, hm⟩
  · rw [hm]
    simp [Outcome.status, Run.isHwError]
  · rw [hm] at h ⊢
    rcases device_shape env st with hs | hs | hs | hs | hs
    · rw [hs.2]
      simp [Outcome.status, Ev.isDetect]
    · rw [hs.2.2]
      simp [Outcome.status, Ev.isDetect]
    · rw [hs.2.2.2.2]
      simp [Outcome.status, Ev.isDetect]
    · rw [hs.2.2.2.2] at h
      simp [Run.isUsage, Run.isHwError, Ev.isHwError, hs.1, hs.2.1, hs.2.2.2.1] at h
    · rw [hs.2.2.2] at h
      simp [Run.isUsage, Run.isHwError, Ev.isHwError, hs.1, hs.2.1] at h

/-- C3, witness: with a device that cannot be opened, `kal -f 945e6` ends in a
hardware error, with exit status 255 and no detector call. -/
theorem C3_errors_exit_nonzero_witness :
    (main envOpenFails [Opt.f "945e6"]).isHwError = true ∧
      (main envOpenFails [Opt.f "945e6"]).outcome.status = 255 ∧
      (main envOpenFails [Opt.f "945e6"]).outcome.status ≠ 0 ∧
      ((main envOpenFails [Opt.f "945e6"]).isHwError = true →
        ∀ e ∈ (main envOpenFails [Opt.f "945e6"]).trace, e.isDetect = false) :=
  ⟨by decide!, by decide!,
    C3_errors_exit_nonzero envOpenFails [Opt.f "945e6"] (Or.inr (by decide!))⟩

/-- C4, counterexample: with a device that refuses the gain, `kal -f 945e6`
opens the source, fails in `set_gain` and returns -1 without releasing the
handle. -/
theorem C4_handle_not_released :
    (main envGainFails [Opt.f "945e6"]).outcome = Outcome.ret (-1) ∧
      (∃ e ∈ (main envGainFails [Opt.f "945e6"]).trace, e.isOpenOk = true) ∧
      ¬ (main envGainFails [Opt.f "945e6"]).releasesHandle := by
  have ht : (main envGainFails [Opt.f "945e6"]).trace =
      [Ev.construct GSM_RATE (FP.fin 52000000) false, Ev.usrp_open none none 0,
        Ev.set_antenna 1, Ev.set_gain (toFloat (f64 (45 / 100))) false] := by decide!
  have ho : ∃ e ∈ (main envGainFails [Opt.f "945e6"]).trace, e.isOpenOk = true :=
    ⟨Ev.usrp_open none none 0, by rw [ht]; simp, by decide⟩
  refine ⟨by decide!, ho, ?_⟩
  intro hr
  have hd := hr ho
  rw [ht] at hd
  simp at hd

/-- C4, as amended: `main` calls `open` at most once per run, and it never
releases the source itself: no exit path of `main` destroys the handle, which
is left to the end of the process. -/
theorem C4_open_once_never_released (env : Env) (opts : List Opt) :
    ((main env opts).trace.filter Ev.isOpen).length ≤ 1 ∧
      Ev.destroy ∉ (main env opts).trace := by
  rcases main_cases env opts with ⟨c, _, hm⟩ | ⟨st, _, hm⟩
  · rw [hm]
    simp
  · rw [hm]
    rcases device_shape env st with hs | hs | hs | hs | hs
    · rw [hs.2]
      simp [List.filter, Ev.isOpen]
    · rw [hs.2.2]
      simp [List.filter, Ev.isOpen]
    · rw [hs.2.2.2.2]
      simp [List.filter, Ev.isOpen]
    · rw [hs.2.2.2.2]
      simp [List.filter, Ev.isOpen]
    · rw [hs.2.2.2]
      simp [List.filter, Ev.isOpen]

/-- C8: when the configuration is valid and the device set-up succeeds (`open`
does not return -1, `set_gain` returns true and, in offset mode, `tune`
returns true), `main` makes exactly one detector call, `offset_detect` in
offset mode and `c0_detect` in scan mode, and returns the value of that
call. -/
theorem C8_one_detector_call (env : Env) (opts : List Opt) (st : St)
    (hc : config env opts = .ok st)
    (ho : env.usrp_open st.subdev st.args ≠ -1)
    (hg : env.set_gain st.gain = true)
    (ht : st.bts_scan = 0 → env.tune st.freq = true) :
    ∃ e, (main env opts).trace.filter Ev.isDetect = [e] ∧
      (main env opts).outcome = Outcome.ret e.result ∧
      (st.bts_scan = 0 → e = Ev.offset_detect st.freq (env.offset_detect st.freq)) ∧
      (st.bts_scan ≠ 0 → e = Ev.c0_detect st.bi (env.c0_detect st.bi)) := by
  have hm : main env opts = device env st := by
    unfold main
    rw [hc]
  rw [hm]
  rcases device_shape env st with hs | hs | hs | hs | hs
  · exact absurd hs.1 ho
  · rw [hg] at hs
    exact absurd hs.2.1 (by simp)
  · have := ht hs.2.2.1
    rw [this] at hs
    exact absurd hs.2.2.2.1 (by simp)
  · refine ⟨Ev.offset_detect st.freq (env.offset_detect st.freq), ?_, ?_, ?_, ?_⟩
    · rw [hs.2.2.2.2]
      simp [List.filter, Ev.isDetect]
    · rw [hs.2.2.2.2]
      simp [Ev.result]
    · intro _
      rfl
    · intro hn
      exact absurd hs.2.2.1 hn
  · refine ⟨Ev.c0_detect st.bi (env.c0_detect st.bi), ?_, ?_, ?_, ?_⟩
    · rw [hs.2.2.2]
      simp [List.filter, Ev.isDetect]
    · rw [hs.2.2.2]
      simp [Ev.result]
    · intro h0
      exact absurd h0 hs.2.2.1
    · intro _
      rfl

/-- C8, witness: with detectors returning 7 and 9, `kal -f 945e6` makes one
detector call and returns its value. -/
theorem C8_one_detector_call_witness :
    ∃ e, (main envDetect [Opt.f "945e6"]).trace.filter Ev.isDetect = [e] ∧
      (main envDetect [Opt.f "945e6"]).outcome = Outcome.ret e.result ∧
      (stOffsetDemo.bts_scan = 0 →
        e = Ev.offset_detect stOffsetDemo.freq (envDetect.offset_detect stOffsetDemo.freq)) ∧
      (stOffsetDemo.bts_scan ≠ 0 →
        e = Ev.c0_detect stOffsetDemo.bi (envDetect.c0_detect stOffsetDemo.bi)) :=
  C8_one_detector_call envDetect [Opt.f "945e6"] stOffsetDemo (by decide!) (by decide)
    (by decide) (fun _ => by decide)

/-- C9: a call `offset_detect(u, freq)` comes at the end of a trace made, in
this order, of the construction of the source, a successful `open`,
`set_antenna`, a successful `set_gain` and a successful `tune` at the same
`freq`; and a run in scan mode, or one that calls `c0_detect`, has no call of
`tune` by `main`. -/
theorem C9_offset_detect_after_tune (env : Env) (opts : List Opt) :
    (∀ f r, Ev.offset_detect f r ∈ (main env opts).trace →
      ∃ clock ext subdev args ro a g, ro ≠ -1 ∧
        (main env opts).trace =
          [Ev.construct GSM_RATE clock ext, Ev.usrp_open subdev args ro, Ev.set_antenna a,
            Ev.set_gain g true, Ev.tune f true, Ev.offset_detect f r]) ∧
    (∀ bi r, Ev.c0_detect bi r ∈ (main env opts).trace →
      ∀ e ∈ (main env opts).trace, e.isTune = false) ∧
    (∀ st, config env opts = .ok st → st.bts_scan ≠ 0 →
      ∀ e ∈ (main env opts).trace, e.isTune = false) := by
  rcases main_cases env opts with ⟨c, hcf, hm⟩ | ⟨st, hcf, hm⟩
  · rw [hm]
    simp
  · rw [hm]
    have hst : ∀ st1, config env opts = .ok st1 → st1 = st := by
      intro st1 h1
      rw [hcf] at h1
      cases h1
      rfl
    rcases device_shape env st with hs | hs | hs | hs | hs
    · rw [hs.2]
      simp [Ev.isTune]
    · rw [hs.2.2]
      simp [Ev.isTune]
    · rw [hs.2.2.2.2]
      refine ⟨by simp, by simp, ?_⟩
      intro st1 h1 hn
      rw [hst st1 h1] at hn
      exact absurd hs.2.2.1 hn
    · rw [hs.2.2.2.2]
      refine ⟨?_, by simp, ?_⟩
      · intro f r hmem
        simp at hmem
        obtain ⟨hf, hr⟩ := hmem
        subst hf
        subst hr
        exact ⟨_, _, _, _, _, _, _, hs.1, by rw [hs.2.1, hs.2.2.2.1]⟩
      · intro st1 h1 hn
        rw [hst st1 h1] at hn
        exact absurd hs.2.2.1 hn
    · rw [hs.2.2.2]
      simp [Ev.isTune]

/-- C9, witness: in `kal -f 945e6` the call of `offset_detect` at 945 MHz
follows a successful `tune` at 945 MHz. -/
theorem C9_offset_detect_after_tune_witness :
    ∃ clock ext subdev args ro a g, ro ≠ -1 ∧
      (main demoEnv [Opt.f "945e6"]).trace =
        [Ev.construct GSM_RATE clock ext, Ev.usrp_open subdev args ro, Ev.set_antenna a,
          Ev.set_gain g true, Ev.tune (FP.fin 945000000) true,
          Ev.offset_detect (FP.fin 945000000) 0] :=
  (C9_offset_detect_after_tune demoEnv [Opt.f "945e6"]).1 (FP.fin 945000000) 0 (by decide!)

/-! ## The option loop: band and scan flag -/

/-- An iteration of the option loop never ends in the error of the sanity
check for a scan without band. -/
theorem optStep_error_ne_scan (env : Env) (st : St) (o : Opt) :
    optStep env st o ≠ .error UsageCause.scanNeedsBand := by
  cases o <;> simp only [optStep] <;> (try split_ifs) <;> simp

/-- One iteration keeps the scan flag in `{0, 1}` and, when `str_to_bi` never
returns `BI_NOT_DEFINED` as a band, keeps a band defined while the flag is
set. -/
theorem optStep_scan_inv (env : Env)
    (h : ∀ s, env.str_to_bi s = -1 ∨ env.str_to_bi s ≠ env.BI_NOT_DEFINED)
    (st st1 : St) (o : Opt) (hs : optStep env st o = .ok st1)
    (hinv : (st.bts_scan = 0 ∨ st.bts_scan = 1) ∧
      (st.bts_scan = 1 → st.bi ≠ env.BI_NOT_DEFINED)) :
    (st1.bts_scan = 0 ∨ st1.bts_scan = 1) ∧
      (st1.bts_scan = 1 → st1.bi ≠ env.BI_NOT_DEFINED) := by
  cases o with
  | s optarg =>
      simp only [optStep] at hs
      split_ifs at hs with hb
      cases hs
      refine ⟨Or.inr rfl, fun _ => ?_⟩
      rcases h optarg with h1 | h1
      · exact absurd h1 hb
      · exact h1
  | b optarg =>
      simp only [optStep] at hs
      split_ifs at hs with hb
      cases hs
      refine ⟨hinv.1, fun _ => ?_⟩
      rcases h optarg with h1 | h1
      · exact absurd h1 hb
      · exact h1
  | A optarg =>
      simp only [optStep] at hs
      split_ifs at hs <;> cases hs <;> exact hinv
  | g optarg =>
      simp only [optStep] at hs
      split_ifs at hs
      cases hs
      exact hinv
  | h => simp [optStep] at hs
  | unknown => simp [optStep] at hs
  | f optarg => simp only [optStep] at hs; cases hs; exact hinv
  | c optarg => simp only [optStep] at hs; cases hs; exact hinv
  | R optarg => simp only [optStep] at hs; cases hs; exact hinv
  | a optarg => simp only [optStep] at hs; cases hs; exact hinv
  | F optarg => simp only [optStep] at hs; cases hs; exact hinv
  | x => simp only [optStep] at hs; cases hs; exact hinv
  | v => simp only [optStep] at hs; cases hs; exact hinv
  | D => simp only [optStep] at hs; cases hs; exact hinv

/-- The option loop keeps the invariant of `optStep_scan_inv`. -/
theorem optLoop_scan_inv (env : Env)
    (h : ∀ s, env.str_to_bi s = -1 ∨ env.str_to_bi s ≠ env.BI_NOT_DEFINED)
    (opts : List Opt) (st st1 : St) (hs : optLoop env st opts = .ok st1)
    (hinv : (st.bts_scan = 0 ∨ st.bts_scan = 1) ∧
      (st.bts_scan = 1 → st.bi ≠ env.BI_NOT_DEFINED)) :
    (st1.bts_scan = 0 ∨ st1.bts_scan = 1) ∧
      (st1.bts_scan = 1 → st1.bi ≠ env.BI_NOT_DEFINED) := by
  induction opts generalizing st with
  | nil =>
      simp only [optLoop] at hs
      cases hs
      exact hinv
  | cons o os ih =>
      simp only [optLoop] at hs
      cases hstep : optStep env st o with
      | error c => rw [hstep] at hs; cases hs
      | ok st2 =>
          rw [hstep] at hs
          exact ih st2 hs (optStep_scan_inv env h st st2 o hstep hinv)

/-- The option loop never ends in the error of the sanity check for a scan
without band. -/
theorem optLoop_error_ne_scan (env : Env) (opts : List Opt) (st : St) :
    optLoop env st opts ≠ .error UsageCause.scanNeedsBand := by
  induction opts generalizing st with
  | nil => simp [optLoop]
  | cons o os ih =>
      simp only [optLoop]
      cases hstep : optStep env st o with
      | error c =>
          intro hc
          apply optStep_error_ne_scan env st o
          rw [hstep]
          exact hc
      | ok st2 => exact ih st2

/-- C10: when `str_to_bi` returns -1 or a band indicator other than
`BI_NOT_DEFINED`, the state after every iteration of the option loop satisfies
`bts_scan = 1 → bi ≠ BI_NOT_DEFINED` (and `bts_scan` is 0 or 1), and no command
line takes the branch "scaning requires band" of the sanity check. -/
theorem C10_scan_has_band (env : Env)
    (h : ∀ s, env.str_to_bi s = -1 ∨ env.str_to_bi s ≠ env.BI_NOT_DEFINED) :
    (∀ opts st, optLoop env (St.init env) opts = .ok st →
      (st.bts_scan = 0 ∨ st.bts_scan = 1) ∧
        (st.bts_scan = 1 → st.bi ≠ env.BI_NOT_DEFINED)) ∧
    (∀ opts, (main env opts).outcome ≠ Outcome.usage UsageCause.scanNeedsBand) := by
  have hloop : ∀ opts st, optLoop env (St.init env) opts = .ok st →
      (st.bts_scan = 0 ∨ st.bts_scan = 1) ∧
        (st.bts_scan = 1 → st.bi ≠ env.BI_NOT_DEFINED) := by
    intro opts st hs
    exact optLoop_scan_inv env h opts (St.init env) st hs ⟨Or.inl rfl, by simp [St.init]⟩
  refine ⟨hloop, ?_⟩
  intro opts hout
  rcases main_cases env opts with ⟨c, hcf, hm⟩ | ⟨st, _, hm⟩
  · rw [hm] at hout
    simp only [Outcome.usage.injEq] at hout
    subst hout
    unfold config at hcf
    cases hl : optLoop env (St.init env) opts with
    | error c1 =>
        rw [hl] at hcf
        simp only at hcf
        exact optLoop_error_ne_scan env opts (St.init env) (by rw [hl, hcf])
    | ok st0 =>
        rw [hl] at hcf
        simp only at hcf
        obtain ⟨h01, hbi⟩ := hloop opts st0 hl
        unfold sanity at hcf
        rcases h01 with h0 | h1
        · simp only [h0, ne_eq, not_true_eq_false, if_false] at hcf
          cases hch : sanityChan env st0 with
          | error c2 =>
              rw [hch] at hcf
              simp only [Except.error.injEq] at hcf
              subst hcf
              simp only [sanityChan] at hch
              split_ifs at hch <;> simp at hch
          | ok st2 =>
              rw [hch] at hcf
              simp only at hcf
              simp only [sanityRange] at hcf
              split_ifs at hcf
              simp at hcf
        · have hb := hbi h1
          simp [h1, hb] at hcf
  · obtain ⟨code, hc⟩ := device_outcome_ret env st
    rw [hm, hc] at hout
    cases hout

/-- In `demoEnv`, `str_to_bi` returns -1 or a band other than
`BI_NOT_DEFINED`. -/
theorem demo_str_to_bi_defined (s : String) :
    demoEnv.str_to_bi s = -1 ∨ demoEnv.str_to_bi s ≠ demoEnv.BI_NOT_DEFINED := by
  show demo_str_to_bi s = -1 ∨ demo_str_to_bi s ≠ 0
  unfold demo_str_to_bi
  split_ifs <;> simp

/-- C10, witness: `kal -s GSM900 -v` leaves the option loop with the scan flag
set and the band defined, and does not take the branch "scaning requires
band". -/
theorem C10_scan_has_band_witness :
    (∀ s, demoEnv.str_to_bi s = -1 ∨ demoEnv.str_to_bi s ≠ demoEnv.BI_NOT_DEFINED) ∧
      (main demoEnv [Opt.s "GSM900", Opt.v]).outcome ≠
        Outcome.usage UsageCause.scanNeedsBand :=
  ⟨demo_str_to_bi_defined,
    (C10_scan_has_band demoEnv demo_str_to_bi_defined).2 [Opt.s "GSM900", Opt.v]⟩

/-! ## Comparisons -/

/-- For a value that is not a NaN, `c <= x` is the negation of `x < c`. -/
theorem FP.le_fin_left (x : FP) (c : ℚ) (hx : x.isNaN = false) :
    FP.le (FP.fin c) x = !FP.lt x (FP.fin c) := by
  cases x with
  | nan => simp [FP.isNaN] at hx
  | ninf => simp [FP.le, FP.lt]
  | pinf => simp [FP.le, FP.lt]
  | fin q =>
      simp only [FP.le, FP.lt]
      by_cases h : q < c
      · simp [h, not_le.mpr h]
      · simp [h, not_lt.mp h]

/-- For a value that is not a NaN, `x <= c` is the negation of `c < x`. -/
theorem FP.le_fin_right (x : FP) (c : ℚ) (hx : x.isNaN = false) :
    FP.le x (FP.fin c) = !FP.lt (FP.fin c) x := by
  cases x with
  | nan => simp [FP.isNaN] at hx
  | ninf => simp [FP.le, FP.lt]
  | pinf => simp [FP.le, FP.lt]
  | fin q =>
      simp only [FP.le, FP.lt]
      by_cases h : c < q
      · simp [h, not_le.mpr h]
      · simp [h, not_lt.mp h]

/-- Rounding a rational never gives a NaN. -/
theorem roundNE_isNaN (prec : Nat) (emin emax : Int) (q : ℚ) :
    (roundNE prec emin emax q).isNaN = false := by
  simp only [roundNE]
  split_ifs <;> rfl

/-- The conversion to `float` gives a NaN only from a NaN. -/
theorem toFloat_isNaN (x : FP) : (toFloat x).isNaN = x.isNaN := by
  cases x with
  | fin q =>
      show (roundNE 24 (-126) 127 q).isNaN = false
      exact roundNE_isNaN _ _ _ q
  | nan => rfl
  | ninf => rfl
  | pinf => rfl

/-! ## The gain -/

/-- The gain after one iteration: option `-g` stores `gainOfArg` of its
argument, which has passed the range test; the other options keep the gain. -/
theorem optStep_gain (env : Env) (st st1 : St) (o : Opt) (hs : optStep env st o = .ok st1) :
    (∀ a, o = Opt.g a → st1.gain = gainOfArg env a ∧
      FP.lt (gainOfArg env a) (FP.fin 0) = false ∧
      FP.lt (FP.fin 1) (gainOfArg env a) = false) ∧
    ((∀ a, o ≠ Opt.g a) → st1.gain = st.gain) := by
  cases o with
  | g optarg =>
      refine ⟨?_, fun hne => absurd rfl (hne optarg)⟩
      intro a ha
      cases ha
      simp only [optStep] at hs
      split_ifs at hs with h2
      cases hs
      simp only [Bool.or_eq_true, not_or, Bool.not_eq_true] at h2
      exact ⟨rfl, h2.1, h2.2⟩
  | s optarg =>
      refine ⟨fun a ha => (by cases ha), fun _ => ?_⟩
      simp only [optStep] at hs
      split_ifs at hs
      cases hs
      rfl
  | b optarg =>
      refine ⟨fun a ha => (by cases ha), fun _ => ?_⟩
      simp only [optStep] at hs
      split_ifs at hs
      cases hs
      rfl
  | A optarg =>
      refine ⟨fun a ha => (by cases ha), fun _ => ?_⟩
      simp only [optStep] at hs
      split_ifs at hs <;> cases hs <;> rfl
  | h => simp [optStep] at hs
  | unknown => simp [optStep] at hs
  | f optarg =>
      exact ⟨fun a ha => (by cases ha), fun _ => by simp only [optStep] at hs; cases hs; rfl⟩
  | c optarg =>
      exact ⟨fun a ha => (by cases ha), fun _ => by simp only [optStep] at hs; cases hs; rfl⟩
  | R optarg =>
      exact ⟨fun a ha => (by cases ha), fun _ => by simp only [optStep] at hs; cases hs; rfl⟩
  | a optarg =>
      exact ⟨fun a ha => (by cases ha), fun _ => by simp only [optStep] at hs; cases hs; rfl⟩
  | F optarg =>
      exact ⟨fun a ha => (by cases ha), fun _ => by simp only [optStep] at hs; cases hs; rfl⟩
  | x =>
      exact ⟨fun a ha => (by cases ha), fun _ => by simp only [optStep] at hs; cases hs; rfl⟩
  | v =>
      exact ⟨fun a ha => (by cases ha), fun _ => by simp only [optStep] at hs; cases hs; rfl⟩
  | D =>
      exact ⟨fun a ha => (by cases ha), fun _ => by simp only [optStep] at hs; cases hs; rfl⟩

/-- The gain after the option loop: the initial gain when there is no `-g`,
and otherwise `gainOfArg` of the last `-g` argument, which has passed the
range test. -/
theorem optLoop_gain (env : Env) (opts : List Opt) (st st1 : St)
    (hs : optLoop env st opts = .ok st1) :
    (lastG opts = none → st1.gain = st.gain) ∧
    (∀ a, lastG opts = some a → st1.gain = gainOfArg env a ∧
      FP.lt (gainOfArg env a) (FP.fin 0) = false ∧
      FP.lt (FP.fin 1) (gainOfArg env a) = false) := by
  induction opts generalizing st with
  | nil =>
      simp only [optLoop] at hs
      cases hs
      simp [lastG]
  | cons o os ih =>
      simp only [optLoop] at hs
      cases hstep : optStep env st o with
      | error c => rw [hstep] at hs; cases hs
      | ok st2 =>
          rw [hstep] at hs
          obtain ⟨ihn, ihs⟩ := ih st2 hs
          obtain ⟨hg, hng⟩ := optStep_gain env st st2 o hstep
          cases hl : lastG os with
          | some b =>
              simp only [lastG, hl]
              refine ⟨fun hc => (by cases hc), ?_⟩
              intro a ha
              cases ha
              exact ihs b hl
          | none =>
              have h12 := ihn hl
              simp only [lastG, hl]
              constructor
              · intro hno
                rw [h12]
                apply hng
                intro a ha
                subst ha
                simp at hno
              · intro a ha
                have ho : o = Opt.g a := by
                  cases o <;> simp at ha
                  subst ha
                  rfl
                rw [h12]
                exact hg a ho

/-- The sanity check keeps the gain and the scan flag. -/
theorem sanity_keeps (env : Env) (st st1 : St) (hs : sanity env st = .ok st1) :
    st1.gain = st.gain ∧ st1.bts_scan = st.bts_scan := by
  unfold sanity at hs
  split_ifs at hs with h1 h2
  · cases hs
    exact ⟨rfl, rfl⟩
  · cases hch : sanityChan env st with
    | error c =>
        rw [hch] at hs
        cases hs
    | ok st2 =>
        rw [hch] at hs
        simp only at hs
        have h2 : st2.gain = st.gain ∧ st2.bts_scan = st.bts_scan := by
          simp only [sanityChan] at hch
          split_ifs at hch <;> cases hch <;> exact ⟨rfl, rfl⟩
        simp only [sanityRange] at hs
        split_ifs at hs
        cases hs
        exact h2

/-- A gain handed to `set_gain` is the gain of the state the option loop has
reached. -/
theorem gainsPassed_main (env : Env) (opts : List Opt) (g : FP)
    (hg : g ∈ gainsPassed (main env opts)) :
    ∃ st0, optLoop env (St.init env) opts = .ok st0 ∧ g = st0.gain := by
  rcases main_cases env opts with ⟨c, _, hm⟩ | ⟨st, hcf, hm⟩
  · rw [hm] at hg
    simp [gainsPassed] at hg
  · unfold config at hcf
    cases hl : optLoop env (St.init env) opts with
    | error c1 =>
        rw [hl] at hcf
        cases hcf
    | ok st0 =>
        rw [hl] at hcf
        simp only at hcf
        have hk := (sanity_keeps env st0 st hcf).1
        refine ⟨st0, rfl, ?_⟩
        rw [← hk]
        rw [hm] at hg
        rcases device_shape env st with hs | hs | hs | hs | hs
        · rw [hs.2] at hg
          simp [gainsPassed] at hg
        · rw [hs.2.2] at hg
          simpa [gainsPassed] using hg
        · rw [hs.2.2.2.2] at hg
          simpa [gainsPassed] using hg
        · rw [hs.2.2.2.2] at hg
          simpa [gainsPassed] using hg
        · rw [hs.2.2.2] at hg
          simpa [gainsPassed] using hg

/-- A gain handed to `set_gain` is a NaN or lies between 0 and 1. -/
theorem gain_in_range_or_nan (env : Env) (opts : List Opt) (g : FP)
    (hg : g ∈ gainsPassed (main env opts)) :
    g.isNaN = true ∨ (FP.le (FP.fin 0) g = true ∧ FP.le g (FP.fin 1) = true) := by
  obtain ⟨st0, hl, rfl⟩ := gainsPassed_main env opts g hg
  obtain ⟨hnone, hsome⟩ := optLoop_gain env opts (St.init env) st0 hl
  cases hlast : lastG opts with
  | none =>
      right
      rw [hnone hlast]
      show FP.le (FP.fin 0) (toFloat (f64 (45 / 100))) = true ∧
        FP.le (toFloat (f64 (45 / 100))) (FP.fin 1) = true
      exact ⟨by decide!, by decide!⟩
  | some a =>
      obtain ⟨h1, h2, h3⟩ := hsome a hlast
      rw [h1]
      cases hn : (gainOfArg env a).isNaN with
      | true => exact Or.inl rfl
      | false =>
          right
          rw [FP.le_fin_left _ _ hn, FP.le_fin_right _ _ hn, h2, h3]
          exact ⟨rfl, rfl⟩

/-- C1, the code at the failing input `kal -g nan -f 945e6`: `strtod` gives a
NaN, the range test of `-g` lets it through (every comparison with a NaN is
false), and `set_gain` receives the NaN, for which `0 <= gain` and
`gain <= 1` are both false. -/
theorem C1_nan_gain_reaches_set_gain :
    demoEnv.strtod "nan" = FP.nan ∧
      gainsPassed (main demoEnv [Opt.g "nan", Opt.f "945e6"]) = [FP.nan] ∧
      FP.le (FP.fin 0) FP.nan = false ∧ FP.le FP.nan (FP.fin 1) = false := by
  decide!

/-- C6, the code at the failing input `kal -s GSM900 -b DCS1800`: the device
set-up succeeds and `c0_detect` is called with the band of `-b` (DCS1800, 5),
not with the band named by `-s` (GSM900, 3). -/
theorem C6_scan_band_overridden_by_b :
    demoEnv.str_to_bi "GSM900" = 3 ∧ demoEnv.str_to_bi "DCS1800" = 5 ∧
      (main demoEnv [Opt.s "GSM900", Opt.b "DCS1800"]).isHwError = false ∧
      (main demoEnv [Opt.s "GSM900", Opt.b "DCS1800"]).trace.filter Ev.isDetect =
        [Ev.c0_detect 5 0] := by
  decide!

/-- C7, counterexample: `kal -g 1 -f 945e6` is accepted and hands the gain 1
(the whole range) to `set_gain`, not 1/100. -/
theorem C7_gain_one_not_divided :
    demoEnv.strtod "1" = FP.fin 1 ∧
      gainsPassed (main demoEnv [Opt.g "1", Opt.f "945e6"]) = [FP.fin 1] ∧
      FP.fin 1 ≠ FP.fin (1 / 100) ∧
      FP.fin 1 ≠ toFloat (div100 (toFloat (FP.fin 1))) := by
  decide!

/-- C7, as amended: the gain handed to `set_gain` is the `float` 0.45 when
there is no `-g`; otherwise, with `p` the last `-g` value converted to `float`
(and not a NaN), it is `p / 100` when `1 < p <= 100`, and `p` itself, taken as
a fraction of the range, when `0 <= p <= 1`. -/
theorem C7_gain_percent_or_fraction (env : Env) (opts : List Opt) (g : FP)
    (hg : g ∈ gainsPassed (main env opts)) :
    (lastG opts = none → g = toFloat (f64 (45 / 100))) ∧
    (∀ a, lastG opts = some a → (env.strtod a).isNaN = false →
      (FP.lt (FP.fin 1) (toFloat (env.strtod a)) = true ∧
        FP.le (toFloat (env.strtod a)) (FP.fin 100) = true ∧
        g = toFloat (div100 (toFloat (env.strtod a)))) ∨
      (FP.le (FP.fin 0) (toFloat (env.strtod a)) = true ∧
        FP.le (toFloat (env.strtod a)) (FP.fin 1) = true ∧
        g = toFloat (env.strtod a))) := by
  obtain ⟨st0, hl, rfl⟩ := gainsPassed_main env opts g hg
  obtain ⟨hnone, hsome⟩ := optLoop_gain env opts (St.init env) st0 hl
  refine ⟨fun hlast => (by rw [hnone hlast]; rfl), ?_⟩
  intro a hlast hnan
  obtain ⟨h1, h2, h3⟩ := hsome a hlast
  have hp : (toFloat (env.strtod a)).isNaN = false := by rw [toFloat_isNaN]; exact hnan
  rw [h1]
  by_cases hc : (FP.gt (toFloat (env.strtod a)) (FP.fin 1) &&
      FP.le (toFloat (env.strtod a)) (FP.fin 100)) = true
  · left
    have hg1 : gainOfArg env a = toFloat (div100 (toFloat (env.strtod a))) := by
      simp only [gainOfArg, hc, if_true]
    simp only [Bool.and_eq_true, FP.gt] at hc
    exact ⟨hc.1, hc.2, hg1⟩
  · right
    have hg1 : gainOfArg env a = toFloat (env.strtod a) := by
      simp only [gainOfArg, hc]
      rfl
    rw [hg1] at h2 h3 ⊢
    rw [FP.le_fin_left _ _ hp, FP.le_fin_right _ _ hp, h2, h3]
    exact ⟨rfl, rfl, rfl⟩

/-- C7, witness: `kal -g 45 -f 945e6` hands the `float` of 45/100 to
`set_gain`. -/
theorem C7_gain_percent_or_fraction_witness :
    toFloat (div100 (toFloat (FP.fin 45))) ∈
        gainsPassed (main demoEnv [Opt.g "45", Opt.f "945e6"]) ∧
      (lastG [Opt.g "45", Opt.f "945e6"] = some "45" →
        (demoEnv.strtod "45").isNaN = false →
        (FP.lt (FP.fin 1) (toFloat (demoEnv.strtod "45")) = true ∧
          FP.le (toFloat (demoEnv.strtod "45")) (FP.fin 100) = true ∧
          toFloat (div100 (toFloat (FP.fin 45))) =
            toFloat (div100 (toFloat (demoEnv.strtod "45")))) ∨
        (FP.le (FP.fin 0) (toFloat (demoEnv.strtod "45")) = true ∧
          FP.le (toFloat (demoEnv.strtod "45")) (FP.fin 1) = true ∧
          toFloat (div100 (toFloat (FP.fin 45))) = toFloat (demoEnv.strtod "45"))) :=
  ⟨by decide!,
    (C7_gain_percent_or_fraction demoEnv [Opt.g "45", Opt.f "945e6"]
      (toFloat (div100 (toFloat (FP.fin 45)))) (by decide!)).2 "45"⟩

/-! ## The frequency of offset mode -/

/-- The range test accepts a frequency that is not a NaN exactly when it lies
in [869e6, 2e9], and keeps it. -/
theorem sanityRange_ok_iff (env : Env) (st : St) (hn : st.freq.isNaN = false) :
    (∀ st1, sanityRange env st = .ok st1 → st1.freq = st.freq ∧
      FP.le (FP.fin 869000000) st.freq = true ∧ FP.le st.freq (FP.fin 2000000000) = true) ∧
    (FP.le (FP.fin 869000000) st.freq = true → FP.le st.freq (FP.fin 2000000000) = true →
      ∃ st1, sanityRange env st = .ok st1 ∧ st1.freq = st.freq) := by
  rw [FP.le_fin_left _ _ hn, FP.le_fin_right _ _ hn]
  constructor
  · intro st1 h
    simp only [sanityRange] at h
    split_ifs at h with hc
    cases h
    simp only [Bool.or_eq_true, not_or, Bool.not_eq_true] at hc
    simp [hc.1, hc.2]
  · intro h1 h2
    simp only [Bool.not_eq_true'] at h1 h2
    simp [sanityRange, h1, h2]

/-- The sanity check in offset mode, for a frequency and a channel frequency
that are not NaNs: it succeeds exactly when the effective frequency is defined
and lies in [869e6, 2e9], and the frequency it leaves is the effective one. -/
theorem sanity_offset_mode (env : Env) (st : St) (hs : st.bts_scan = 0)
    (hn : st.freq.isNaN = false)
    (hc : (env.arfcn_to_freq st.chan st.bi).1.isNaN = false) :
    (∀ st1, sanity env st = .ok st1 → effectiveFreqSpec env st = some st1.freq ∧
      FP.le (FP.fin 869000000) st1.freq = true ∧
      FP.le st1.freq (FP.fin 2000000000) = true) ∧
    (∀ f, effectiveFreqSpec env st = some f → FP.le (FP.fin 869000000) f = true →
      FP.le f (FP.fin 2000000000) = true → ∃ st1, sanity env st = .ok st1 ∧ st1.freq = f) := by
  have hle : FP.le (FP.fin 0) st.freq = !FP.lt st.freq (FP.fin 0) := FP.le_fin_left _ _ hn
  by_cases h0 : FP.lt st.freq (FP.fin 0) = true
  · -- the frequency comes from the channel
    have heff : effectiveFreqSpec env st =
        if 0 ≤ st.chan then some (env.arfcn_to_freq st.chan st.bi).1 else none := by
      simp [effectiveFreqSpec, hle, h0]
    by_cases hch : st.chan < 0
    · have hs1 : sanity env st = .error UsageCause.noChanOrFreq := by
        simp [sanity, hs, sanityChan, h0, hch]
      rw [hs1, heff]
      simp [not_le.mpr hch]
    · rw [heff]
      simp only [not_lt.mp hch, if_true]
      by_cases hlow : FP.lt (env.arfcn_to_freq st.chan st.bi).1 (FP.fin 869000000) = true
      · have hs1 : sanity env st = .error UsageCause.chanFreqLow := by
          simp [sanity, hs, sanityChan, h0, hch, hlow]
        rw [hs1]
        refine ⟨fun st1 h => (by cases h), ?_⟩
        intro f hf h1 _
        simp only [Option.some.injEq] at hf
        subst hf
        rw [FP.le_fin_left _ _ hc, hlow] at h1
        simp at h1
      · have hs1 : sanity env st = sanityRange env
            { st with freq := (env.arfcn_to_freq st.chan st.bi).1,
                      bi := (env.arfcn_to_freq st.chan st.bi).2 } := by
          simp [sanity, hs, sanityChan, h0, hch, hlow]
        rw [hs1]
        obtain ⟨hr1, hr2⟩ := sanityRange_ok_iff env
          { st with freq := (env.arfcn_to_freq st.chan st.bi).1,
                    bi := (env.arfcn_to_freq st.chan st.bi).2 } hc
        constructor
        · intro st1 h
          obtain ⟨e1, e2, e3⟩ := hr1 st1 h
          rw [e1]
          exact ⟨rfl, e2, e3⟩
        · intro f hf h1 h2
          simp only [Option.some.injEq] at hf
          subst hf
          exact hr2 h1 h2
  · -- the frequency is the one of option -f
    have heff : effectiveFreqSpec env st = some st.freq := by
      simp [effectiveFreqSpec, hle, h0]
    have hs1 : sanity env st = sanityRange env st := by
      simp [sanity, hs, sanityChan, h0]
    rw [hs1, heff]
    obtain ⟨hr1, hr2⟩ := sanityRange_ok_iff env st hn
    constructor
    · intro st1 h
      obtain ⟨e1, e2, e3⟩ := hr1 st1 h
      rw [e1]
      exact ⟨rfl, e2, e3⟩
    · intro f hf h1 h2
      simp only [Option.some.injEq] at hf
      subst hf
      exact hr2 h1 h2

/-- Offset mode, away from NaNs: when the option loop completes without `-s`,
`main` passes the sanity check exactly when the effective frequency is defined
and lies in [869e6, 2e9]; the frequency handed to `tune` and to
`offset_detect` is then the effective frequency. -/
theorem offset_mode_effective_freq (env : Env) (opts : List Opt) (st0 : St)
    (hl : optLoop env (St.init env) opts = .ok st0) (hs : st0.bts_scan = 0)
    (hn : st0.freq.isNaN = false)
    (hc : (env.arfcn_to_freq st0.chan st0.bi).1.isNaN = false) :
    ((main env opts).isUsage = false ↔
      ∃ f, effectiveFreqOf env opts = some f ∧ FP.le (FP.fin 869000000) f = true ∧
        FP.le f (FP.fin 2000000000) = true) ∧
    (∀ f ok, Ev.tune f ok ∈ (main env opts).trace → effectiveFreqOf env opts = some f) ∧
    (∀ f r, Ev.offset_detect f r ∈ (main env opts).trace →
      effectiveFreqOf env opts = some f) := by
  have heo : effectiveFreqOf env opts = effectiveFreqSpec env st0 := by
    simp only [effectiveFreqOf, hl]
  have hcfg : config env opts = sanity env st0 := by
    simp only [config, hl]
  obtain ⟨h1, h2⟩ := sanity_offset_mode env st0 hs hn hc
  rw [heo]
  cases hsan : sanity env st0 with
  | error c =>
      have hm : main env opts = ⟨[], Outcome.usage c⟩ := by
        simp only [main, hcfg, hsan]
      rw [hm]
      refine ⟨?_, by simp, by simp⟩
      constructor
      · intro h
        simp [Run.isUsage] at h
      · rintro ⟨f, hf, hf1, hf2⟩
        obtain ⟨st1, hst1, _⟩ := h2 f hf hf1 hf2
        rw [hsan] at hst1
        cases hst1
  | ok st1 =>
      have hm : main env opts = device env st1 := by
        simp only [main, hcfg, hsan]
      obtain ⟨he, hr1, hr2⟩ := h1 st1 hsan
      rw [hm, he]
      obtain ⟨code, hcode⟩ := device_outcome_ret env st1
      refine ⟨?_, ?_, ?_⟩
      · constructor
        · intro _
          exact ⟨st1.freq, rfl, hr1, hr2⟩
        · intro _
          simp [Run.isUsage, hcode]
      · intro f ok hmem
        rcases device_shape env st1 with hd | hd | hd | hd | hd
        · rw [hd.2] at hmem; simp at hmem
        · rw [hd.2.2] at hmem; simp at hmem
        · rw [hd.2.2.2.2] at hmem; simp at hmem; rw [hmem.1]
        · rw [hd.2.2.2.2] at hmem; simp at hmem; rw [hmem.1]
        · rw [hd.2.2.2] at hmem; simp at hmem
      · intro f r hmem
        rcases device_shape env st1 with hd | hd | hd | hd | hd
        · rw [hd.2] at hmem; simp at hmem
        · rw [hd.2.2] at hmem; simp at hmem
        · rw [hd.2.2.2.2] at hmem; simp at hmem
        · rw [hd.2.2.2.2] at hmem; simp at hmem; rw [hmem.1]
        · rw [hd.2.2.2] at hmem; simp at hmem

/-- C5, the code at the failing input `kal -f nan`: `strtod` gives a NaN, which
is not at least 0, and there is no channel, so the effective frequency is
undefined; yet `freq < 0.0`, `freq < 869e6` and `2e9 < freq` are all false for
a NaN, the sanity check passes, and `main` goes on to open the device, tune
it to the NaN and call `offset_detect` with it. -/
theorem C5_nan_frequency_accepted :
    demoEnv.strtod "nan" = FP.nan ∧
      FP.le (FP.fin 0) FP.nan = false ∧
      effectiveFreqOf demoEnv [Opt.f "nan"] = none ∧
      (main demoEnv [Opt.f "nan"]).isUsage = false ∧
      (main demoEnv [Opt.f "nan"]).trace.filter (fun e => e.isTune || e.isDetect) =
        [Ev.tune FP.nan true, Ev.offset_detect FP.nan 0] := by
  decide!

/-! ## The band of a scan -/

/-- The band after one iteration: options `-s` and `-b` store `str_to_bi` of
their argument; the other options keep the band. -/
theorem optStep_bi (env : Env) (st st1 : St) (o : Opt) (hs : optStep env st o = .ok st1) :
    (∀ a, (o = Opt.s a ∨ o = Opt.b a) → st1.bi = env.str_to_bi a) ∧
    ((∀ a, o ≠ Opt.s a ∧ o ≠ Opt.b a) → st1.bi = st.bi) := by
  cases o with
  | s optarg =>
      simp only [optStep] at hs
      split_ifs at hs
      cases hs
      refine ⟨?_, fun hne => absurd rfl (hne optarg).1⟩
      rintro a (ha | ha) <;> cases ha
      rfl
  | b optarg =>
      simp only [optStep] at hs
      split_ifs at hs
      cases hs
      refine ⟨?_, fun hne => absurd rfl (hne optarg).2⟩
      rintro a (ha | ha) <;> cases ha
      rfl
  | A optarg =>
      refine ⟨fun a ha => (by rcases ha with ha | ha <;> cases ha), fun _ => ?_⟩
      simp only [optStep] at hs
      split_ifs at hs <;> cases hs <;> rfl
  | g optarg =>
      refine ⟨fun a ha => (by rcases ha with ha | ha <;> cases ha), fun _ => ?_⟩
      simp only [optStep] at hs
      split_ifs at hs
      cases hs
      rfl
  | h => simp [optStep] at hs
  | unknown => simp [optStep] at hs
  | f optarg =>
      refine ⟨fun a ha => (by rcases ha with ha | ha <;> cases ha), fun _ => ?_⟩
      simp only [optStep] at hs; cases hs; rfl
  | c optarg =>
      refine ⟨fun a ha => (by rcases ha with ha | ha <;> cases ha), fun _ => ?_⟩
      simp only [optStep] at hs; cases hs; rfl
  | R optarg =>
      refine ⟨fun a ha => (by rcases ha with ha | ha <;> cases ha), fun _ => ?_⟩
      simp only [optStep] at hs; cases hs; rfl
  | a optarg =>
      refine ⟨fun a ha => (by rcases ha with ha | ha <;> cases ha), fun _ => ?_⟩
      simp only [optStep] at hs; cases hs; rfl
  | F optarg =>
      refine ⟨fun a ha => (by rcases ha with ha | ha <;> cases ha), fun _ => ?_⟩
      simp only [optStep] at hs; cases hs; rfl
  | x =>
      refine ⟨fun a ha => (by rcases ha with ha | ha <;> cases ha), fun _ => ?_⟩
      simp only [optStep] at hs; cases hs; rfl
  | v =>
      refine ⟨fun a ha => (by rcases ha with ha | ha <;> cases ha), fun _ => ?_⟩
      simp only [optStep] at hs; cases hs; rfl
  | D =>
      refine ⟨fun a ha => (by rcases ha with ha | ha <;> cases ha), fun _ => ?_⟩
      simp only [optStep] at hs; cases hs; rfl

/-- The band after the option loop: the initial one when there is no band
option, and otherwise `str_to_bi` of the argument of the last `-s` or `-b`. -/
theorem optLoop_bi (env : Env) (opts : List Opt) (st st1 : St)
    (hs : optLoop env st opts = .ok st1) :
    (lastBand opts = none → st1.bi = st.bi) ∧
    (∀ a, lastBand opts = some a → st1.bi = env.str_to_bi a) := by
  induction opts generalizing st with
  | nil =>
      simp only [optLoop] at hs
      cases hs
      simp [lastBand]
  | cons o os ih =>
      simp only [optLoop] at hs
      cases hstep : optStep env st o with
      | error c => rw [hstep] at hs; cases hs
      | ok st2 =>
          rw [hstep] at hs
          obtain ⟨ihn, ihs⟩ := ih st2 hs
          obtain ⟨hb, hnb⟩ := optStep_bi env st st2 o hstep
          cases hl : lastBand os with
          | some b =>
              simp only [lastBand, hl]
              refine ⟨fun hc => (by cases hc), ?_⟩
              intro a ha
              cases ha
              exact ihs b hl
          | none =>
              have h12 := ihn hl
              simp only [lastBand, hl]
              constructor
              · intro hno
                rw [h12]
                apply hnb
                intro a
                constructor <;> intro ha <;> subst ha <;> simp at hno
              · intro a ha
                have ho : o = Opt.s a ∨ o = Opt.b a := by
                  cases o <;> simp at ha
                  · left; subst ha; rfl
                  · right; subst ha; rfl
                rw [h12]
                exact hb a ho

/-- The band handed to `c0_detect` is the band of the last `-s` or `-b` option
of the command line, whichever comes last. -/
theorem scan_band_is_last_band_option (env : Env) (opts : List Opt) (bi r : Int)
    (hmem : Ev.c0_detect bi r ∈ (main env opts).trace) (a : String)
    (ha : lastBand opts = some a) : bi = env.str_to_bi a := by
  rcases main_cases env opts with ⟨c, _, hm⟩ | ⟨st, hcf, hm⟩
  · rw [hm] at hmem
    simp at hmem
  · rw [hm] at hmem
    have hbi : bi = st.bi ∧ st.bts_scan ≠ 0 := by
      rcases device_shape env st with hd | hd | hd | hd | hd
      · rw [hd.2] at hmem; simp at hmem
      · rw [hd.2.2] at hmem; simp at hmem
      · rw [hd.2.2.2.2] at hmem; simp at hmem
      · rw [hd.2.2.2.2] at hmem; simp at hmem
      · rw [hd.2.2.2] at hmem; simp at hmem; exact ⟨hmem.1, hd.2.2.1⟩
    unfold config at hcf
    cases hl : optLoop env (St.init env) opts with
    | error c1 =>
        rw [hl] at hcf
        cases hcf
    | ok st0 =>
        rw [hl] at hcf
        simp only at hcf
        have hscan : st0.bts_scan ≠ 0 := by
          rw [← (sanity_keeps env st0 st hcf).2]
          exact hbi.2
        have hst : st = st0 := by
          simp only [sanity, hscan, ne_eq, not_false_eq_true, if_true] at hcf
          split_ifs at hcf
          cases hcf
          rfl
        rw [hbi.1, hst]
        exact (optLoop_bi env opts (St.init env) st0 hl).2 a ha

/-! ## The configuration errors -/

/-- An option that `optStep` rejects in every state ends the option loop in
`usage`, wherever it stands on the command line. -/
theorem optLoop_error_of_bad_option (env : Env) (opts : List Opt) (o : Opt) (ho : o ∈ opts)
    (hbad : ∀ st, ∃ c, optStep env st o = .error c) (st : St) :
    ∃ c, optLoop env st opts = .error c := by
  induction opts generalizing st with
  | nil => simp at ho
  | cons o1 os ih =>
      simp only [optLoop]
      cases hstep : optStep env st o1 with
      | error c => exact ⟨c, rfl⟩
      | ok st2 =>
          rcases List.mem_cons.mp ho with h1 | h1
          · subst h1
            obtain ⟨c, hc⟩ := hbad st
            rw [hc] at hstep
            cases hstep
          · exact ih h1 st2

/-- The options that `optStep` rejects in every state: a band option whose
argument `str_to_bi` does not know, an antenna that is neither a name nor a
number, a gain outside the range, `-h` and an unknown option. -/
theorem optStep_bad_options (env : Env) (a : String) (st : St) :
    (env.str_to_bi a = -1 → optStep env st (Opt.s a) = .error (UsageCause.badBand a)) ∧
    (env.str_to_bi a = -1 → optStep env st (Opt.b a) = .error (UsageCause.badBand a)) ∧
    (a ≠ "RX2" → a ≠ "TX/RX" → ((env.strtoul a).errno = true ∨ (env.strtoul a).consumed = 0) →
      optStep env st (Opt.A a) = .error (UsageCause.badAntenna a)) ∧
    ((FP.lt (gainOfArg env a) (FP.fin 0) = true ∨ FP.lt (FP.fin 1) (gainOfArg env a) = true) →
      optStep env st (Opt.g a) = .error UsageCause.gainRange) ∧
    optStep env st Opt.h = .error UsageCause.help ∧
    optStep env st Opt.unknown = .error UsageCause.help := by
  refine ⟨?_, ?_, ?_, ?_, rfl, rfl⟩
  · intro h
    simp [optStep, h]
  · intro h
    simp [optStep, h]
  · intro h1 h2 h3
    simp only [optStep, h1, h2, if_false]
    rcases h3 with h3 | h3 <;> simp [h3]
  · intro h
    simp only [optStep]
    rcases h with h | h <;> simp [h]

/-- A command line with an option that `optStep` rejects in every state ends
in `usage`, with no radio operation. -/
theorem bad_option_ends_in_usage (env : Env) (opts : List Opt) (o : Opt) (ho : o ∈ opts)
    (hbad : ∀ st, ∃ c, optStep env st o = .error c) :
    (main env opts).isUsage = true ∧ (main env opts).trace = [] := by
  obtain ⟨c, hc⟩ := optLoop_error_of_bad_option env opts o ho hbad (St.init env)
  have hm : main env opts = ⟨[], Outcome.usage c⟩ := by
    simp only [main, config, hc]
  rw [hm]
  exact ⟨rfl, rfl⟩

/-- The four errors of the sanity check, on the state the option loop has
reached: a scan without band, neither channel nor frequency, a channel whose
frequency is below 869e6, a frequency below 869e6 or above 2e9. -/
theorem sanity_errors (env : Env) (st : St) :
    (st.bts_scan ≠ 0 → st.bi = env.BI_NOT_DEFINED →
      sanity env st = .error UsageCause.scanNeedsBand) ∧
    (st.bts_scan = 0 → FP.lt st.freq (FP.fin 0) = true → st.chan < 0 →
      sanity env st = .error UsageCause.noChanOrFreq) ∧
    (st.bts_scan = 0 → FP.lt st.freq (FP.fin 0) = true → 0 ≤ st.chan →
      FP.lt (env.arfcn_to_freq st.chan st.bi).1 (FP.fin 869000000) = true →
      sanity env st = .error UsageCause.chanFreqLow) ∧
    (st.bts_scan = 0 → FP.lt st.freq (FP.fin 0) = false →
      (FP.lt st.freq (FP.fin 869000000) = true ∨ FP.lt (FP.fin 2000000000) st.freq = true) →
      sanity env st = .error (UsageCause.badFreq st.freq)) := by
  refine ⟨?_, ?_, ?_, ?_⟩
  · intro h1 h2
    simp [sanity, h1, h2]
  · intro h1 h2 h3
    simp [sanity, sanityChan, h1, h2, h3]
  · intro h1 h2 h3 h4
    simp [sanity, sanityChan, h1, h2, not_lt.mpr h3, h4]
  · intro h1 h2 h3
    simp only [sanity, sanityChan, h1, h2, sanityRange]
    rcases h3 with h3 | h3 <;> simp [h3]

/-! ## Values of the rounding functions -/

/-- The `float` 0.45, the `double` `GSM_RATE`, a `float` that is kept, a value
just above 100 that becomes the `float` 100, two ties that go to the even
neighbour, the overflow to infinity and the underflow to zero. -/
theorem rounding_values :
    toFloat (f64 (45 / 100)) = FP.fin (7549747 / 16777216) ∧
      GSM_RATE = FP.fin (4652881237333333 / 17179869184) ∧
      toFloat (FP.fin 1) = FP.fin 1 ∧
      toFloat (FP.fin (100 + 1 / 1000000000)) = FP.fin 100 ∧
      toFloat (FP.fin (1 + 1 / 2 ^ 24)) = FP.fin 1 ∧
      toFloat (FP.fin (1 + 3 / 2 ^ 24)) = FP.fin (1 + 1 / 2 ^ 22) ∧
      toFloat (FP.fin (-(1 / 3))) = FP.fin (-(11184811 / 33554432)) ∧
      toFloat (FP.fin (2 ^ 128)) = FP.pinf ∧
      toFloat (FP.fin (2 ^ 128 - 2 ^ 103 - 1)) = FP.fin (2 ^ 128 - 2 ^ 104) ∧
      toFloat (FP.fin (-(1 / 2 ^ 150))) = FP.fin 0 := by
  decide!

/-- A state on which the sanity check fails gives a run that ends in `usage`
with no radio operation. -/
theorem sanity_error_ends_in_usage (env : Env) (opts : List Opt) (st0 : St) (c : UsageCause)
    (hl : optLoop env (St.init env) opts = .ok st0) (hs : sanity env st0 = .error c) :
    (main env opts).isUsage = true ∧ (main env opts).trace = [] := by
  have hm : main env opts = ⟨[], Outcome.usage c⟩ := by
    simp only [main, config, hl, hs]
  rw [hm]
  exact ⟨rfl, rfl⟩

/-- C2: a run of `main` that ends in a configuration error ends through
`usage` before any radio operation: its trace has no event, so the source is
not constructed and `open`, `set_antenna`, `set_gain` and `tune` are not
called.  This holds for every cause of `usage`, and each configuration error
does end the run in `usage`: a bad band indicator for `-s` or `-b`, a bad
antenna, a gain out of range, and, on the state the option loop has reached,
a scan without band, neither channel nor frequency, a channel whose frequency
is below 869e6, a frequency below 869e6 or above 2e9. -/
theorem C2_usage_before_radio (env : Env) (opts : List Opt) :
    (∀ cause, (main env opts).outcome = Outcome.usage cause → (main env opts).trace = []) ∧
    (∀ a, (Opt.s a ∈ opts ∨ Opt.b a ∈ opts) → env.str_to_bi a = -1 →
      (main env opts).isUsage = true ∧ (main env opts).trace = []) ∧
    (∀ a, Opt.A a ∈ opts → a ≠ "RX2" → a ≠ "TX/RX" →
      ((env.strtoul a).errno = true ∨ (env.strtoul a).consumed = 0) →
      (main env opts).isUsage = true ∧ (main env opts).trace = []) ∧
    (∀ a, Opt.g a ∈ opts →
      (FP.lt (gainOfArg env a) (FP.fin 0) = true ∨ FP.lt (FP.fin 1) (gainOfArg env a) = true) →
      (main env opts).isUsage = true ∧ (main env opts).trace = []) ∧
    (∀ st0, optLoop env (St.init env) opts = .ok st0 →
      ((st0.bts_scan ≠ 0 ∧ st0.bi = env.BI_NOT_DEFINED) ∨
        (st0.bts_scan = 0 ∧ FP.lt st0.freq (FP.fin 0) = true ∧ st0.chan < 0) ∨
        (st0.bts_scan = 0 ∧ FP.lt st0.freq (FP.fin 0) = true ∧ 0 ≤ st0.chan ∧
          FP.lt (env.arfcn_to_freq st0.chan st0.bi).1 (FP.fin 869000000) = true) ∨
        (st0.bts_scan = 0 ∧ FP.lt st0.freq (FP.fin 0) = false ∧
          (FP.lt st0.freq (FP.fin 869000000) = true ∨
            FP.lt (FP.fin 2000000000) st0.freq = true))) →
      (main env opts).isUsage = true ∧ (main env opts).trace = []) := by
  refine ⟨?_, ?_, ?_, ?_, ?_⟩
  · intro cause h
    rcases main_cases env opts with ⟨c, _, hm⟩ | ⟨st, _, hm⟩
    · rw [hm]
    · obtain ⟨code, hc⟩ := device_outcome_ret env st
      rw [hm, hc] at h
      cases h
  · intro a hmem hbad
    rcases hmem with hmem | hmem
    · exact bad_option_ends_in_usage env opts (Opt.s a) hmem
        (fun st => ⟨_, (optStep_bad_options env a st).1 hbad⟩)
    · exact bad_option_ends_in_usage env opts (Opt.b a) hmem
        (fun st => ⟨_, (optStep_bad_options env a st).2.1 hbad⟩)
  · intro a hmem h1 h2 h3
    exact bad_option_ends_in_usage env opts (Opt.A a) hmem
      (fun st => ⟨_, (optStep_bad_options env a st).2.2.1 h1 h2 h3⟩)
  · intro a hmem hbad
    exact bad_option_ends_in_usage env opts (Opt.g a) hmem
      (fun st => ⟨_, (optStep_bad_options env a st).2.2.2.1 hbad⟩)
  · intro st0 hl hbad
    obtain ⟨e1, e2, e3, e4⟩ := sanity_errors env st0
    rcases hbad with ⟨h1, h2⟩ | ⟨h1, h2, h3⟩ | ⟨h1, h2, h3, h4⟩ | ⟨h1, h2, h3⟩
    · exact sanity_error_ends_in_usage env opts st0 _ hl (e1 h1 h2)
    · exact sanity_error_ends_in_usage env opts st0 _ hl (e2 h1 h2 h3)
    · exact sanity_error_ends_in_usage env opts st0 _ hl (e3 h1 h2 h3 h4)
    · exact sanity_error_ends_in_usage env opts st0 _ hl (e4 h1 h2 h3)

/-- C2, witness: `kal -f 945e6 -g 200` ends in `usage` at the gain test, with
no radio operation, and so does `kal -s GSM` at the band test. -/
theorem C2_usage_before_radio_witness :
    (main demoEnv [Opt.f "945e6", Opt.g "200"]).outcome =
        Outcome.usage UsageCause.gainRange ∧
      (main demoEnv [Opt.f "945e6", Opt.g "200"]).trace = [] ∧
      demoEnv.str_to_bi "GSM" = -1 ∧
      (main demoEnv [Opt.s "GSM"]).isUsage = true ∧ (main demoEnv [Opt.s "GSM"]).trace = [] :=
  ⟨by decide!,
    (C2_usage_before_radio demoEnv [Opt.f "945e6", Opt.g "200"]).1 UsageCause.gainRange
      (by decide!),
    by decide,
    (C2_usage_before_radio demoEnv [Opt.s "GSM"]).2.1 "GSM" (Or.inl (by decide)) (by decide)⟩

end Kal
